import Mathlib

/-!
# gofunct/rpcgen, `proxy/headers.go`

A shallow embedding of the header helpers of the HTTP-to-gRPC proxy:
`isReserved`, `incomingHeaderMatcher`, `outgoingHeaderMatcher`, `allowCors`,
`sanitizeApiPrefix` and `isPermanentHTTPHeader`.

A Go `string` is an immutable sequence of bytes.  It is embedded as a list of
natural numbers, one per byte; ASCII literals of the source are written with
`str`.
-/

namespace Proxy

/-- A Go string: its bytes, in order. -/
abbrev GoString := List Nat

/-- The bytes of an ASCII string literal of the source. -/
def str (s : String) : GoString := s.toList.map Char.toNat

/-! ## `net/textproto` (Go standard library) -/

namespace textproto

/-- The constant `toLower = 'a' - 'A'` of `net/textproto`. -/
def toLower : Nat := 'a'.toNat - 'A'.toNat

/-- The indices at which `isTokenTable` of `net/textproto` holds `true`: the
`tchar` bytes of RFC 7230 (byte 39 is the single quote, byte 96 the grave
accent). -/
def tokenBytes : List Nat :=
  ['!'.toNat, '#'.toNat, '$'.toNat, '%'.toNat, '&'.toNat, 39, '*'.toNat, '+'.toNat,
   '-'.toNat, '.'.toNat,
   '0'.toNat, '1'.toNat, '2'.toNat, '3'.toNat, '4'.toNat, '5'.toNat, '6'.toNat, '7'.toNat,
   '8'.toNat, '9'.toNat,
   'A'.toNat, 'B'.toNat, 'C'.toNat, 'D'.toNat, 'E'.toNat, 'F'.toNat, 'G'.toNat, 'H'.toNat,
   'I'.toNat, 'J'.toNat, 'K'.toNat, 'L'.toNat, 'M'.toNat, 'N'.toNat, 'O'.toNat, 'P'.toNat,
   'Q'.toNat, 'R'.toNat, 'S'.toNat, 'T'.toNat, 'U'.toNat, 'W'.toNat, 'V'.toNat, 'X'.toNat,
   'Y'.toNat, 'Z'.toNat,
   '^'.toNat, '_'.toNat, 96,
   'a'.toNat, 'b'.toNat, 'c'.toNat, 'd'.toNat, 'e'.toNat, 'f'.toNat, 'g'.toNat, 'h'.toNat,
   'i'.toNat, 'j'.toNat, 'k'.toNat, 'l'.toNat, 'm'.toNat, 'n'.toNat, 'o'.toNat, 'p'.toNat,
   'q'.toNat, 'r'.toNat, 's'.toNat, 't'.toNat, 'u'.toNat, 'v'.toNat, 'w'.toNat, 'x'.toNat,
   'y'.toNat, 'z'.toNat,
   '|'.toNat, '~'.toNat]

/-- The table `isTokenTable` of `net/textproto`, an array of 127 booleans. -/
def isTokenTable (b : Nat) : Bool := tokenBytes.contains b

/-- Go: `validHeaderFieldByte(b)` is `int(b) < len(isTokenTable) && isTokenTable[b]`. -/
def validHeaderFieldByte (b : Nat) : Bool := decide (b < 127) && isTokenTable b

/-- The second loop of `canonicalMIMEHeaderKey`: the first letter and every
letter after a hyphen become upper case, every other letter lower case.
`upper` is the loop variable of that name. -/
def canonicalize (upper : Bool) : GoString → GoString
  | [] => []
  | c :: rest =>
    let c1 :=
      if upper && decide ('a'.toNat ≤ c) && decide (c ≤ 'z'.toNat) then c - toLower
      else if !upper && decide ('A'.toNat ≤ c) && decide (c ≤ 'Z'.toNat) then c + toLower
      else c
    c1 :: canonicalize (c1 == '-'.toNat) rest

/-- Go: `canonicalMIMEHeaderKey(a)`.  A key with a byte that is no valid header
field byte is returned as it is; any other key is canonicalized.  The final
lookup in `commonHeader` returns a string equal to its argument and is left
out. -/
def canonicalMIMEHeaderKey (a : GoString) : GoString :=
  if a.all validHeaderFieldByte then canonicalize true a else a

/-- The quick check at the head of `CanonicalMIMEHeaderKey`: `true` when the
loop leaves through one of its two calls of `canonicalMIMEHeaderKey`, `false`
when it returns `s` itself (an invalid byte, or the end of the string). -/
def quickCheck (upper : Bool) : GoString → Bool
  | [] => false
  | c :: rest =>
    if !validHeaderFieldByte c then false
    else if upper && decide ('a'.toNat ≤ c) && decide (c ≤ 'z'.toNat) then true
    else if !upper && decide ('A'.toNat ≤ c) && decide (c ≤ 'Z'.toNat) then true
    else quickCheck (c == '-'.toNat) rest

/-- Go: `textproto.CanonicalMIMEHeaderKey(s)`. -/
def CanonicalMIMEHeaderKey (s : GoString) : GoString :=
  if quickCheck true s then canonicalMIMEHeaderKey s else s

end textproto

/-! ## `proxy/headers.go` -/

/-- Go: `strings.HasPrefix(s, prefix)`. -/
def HasPrefix (s pfx : GoString) : Bool := pfx.isPrefixOf s

/-- Go: `isReserved(key)`, whether the key is reserved by gRPC. -/
def isReserved (key : GoString) : Bool := HasPrefix key (str "Grpc-")

/-- The case labels of the `switch` of `isPermanentHTTPHeader`, in source
order. -/
def permanentHTTPHeaders : List GoString :=
  [str "Accept", str "Accept-Charset", str "Accept-Language", str "Accept-Ranges",
   str "Authorization", str "Cache-Control", str "Content-Type", str "Cookie",
   str "Date", str "Expect", str "From", str "Host", str "If-Match",
   str "If-Modified-Since", str "If-None-Match", str "If-Schedule-Tag-Match",
   str "If-Unmodified-Since", str "Max-Forwards", str "Origin", str "Pragma",
   str "Referer", str "User-Agent", str "Via", str "Warning"]

/-- Go: `isPermanentHTTPHeader(hdr)`. -/
def isPermanentHTTPHeader (hdr : GoString) : Bool := permanentHTTPHeaders.contains hdr

/-- Go: `incomingHeaderMatcher(key)`.  `MetadataPrefix` is the constant
`runtime.MetadataPrefix` of grpc-gateway, declared outside this repository. -/
def incomingHeaderMatcher (MetadataPrefix : GoString) (key : GoString) : GoString × Bool :=
  let key := textproto.CanonicalMIMEHeaderKey key
  if isPermanentHTTPHeader key then (MetadataPrefix ++ key, true)
  else if isReserved key then (str "X-" ++ key, true)
  else if key == str "Content-Length" then (str "", false)
  else (key, true)

/-- Go: `outgoingHeaderMatcher(metadata)`. -/
def outgoingHeaderMatcher (metadata : GoString) : GoString × Bool := (metadata, true)

/-- Go: `sanitizeApiPrefix(prefix)`.  The slice `prefix[len(prefix)-1:]` is the
string made of the last byte. -/
def sanitizeApiPrefix (pfx : GoString) : GoString :=
  if pfx.length == 0 || pfx.drop (pfx.length - 1) != str "/" then pfx ++ str "/"
  else pfx

/-! ### `allowCors`

The state the handler works on is made explicit: the header map of the
response, and what a handler has written so far.  A log of the calls of the
wrapped handler is carried along, so that one can say how often and in which
state it was invoked. -/

/-- Go: `http.Header`, a `map[string][]string`; `none` stands for a key that is
not in the map. -/
abbrev Header := GoString → Option (List GoString)

/-- Go: `Header.Get(key)`, the first value of the canonicalized key, or `""`. -/
def Header.Get (h : Header) (key : GoString) : GoString :=
  match h (textproto.CanonicalMIMEHeaderKey key) with
  | some (v :: _) => v
  | _ => str ""

/-- Go: `Header.Set(key, value)`, the entry of the canonicalized key becomes
the single value. -/
def Header.Set (h : Header) (key value : GoString) : Header :=
  fun k => if k = textproto.CanonicalMIMEHeaderKey key then some [value] else h k

/-- The part of an `*http.Request` that `allowCors` reads. -/
structure Request where
  Method : GoString
  Header : Header

/-- The state behind an `http.ResponseWriter`: the map returned by `Header()`,
the status code given to `WriteHeader` (0 when there was none) and the bytes
given to `Write`. -/
structure ResponseWriter where
  header : Header
  status : Nat
  body : GoString

/-- An `http.Handler`: the effect of `ServeHTTP(w, req)` on the response. -/
abbrev Handler := ResponseWriter → Request → ResponseWriter

/-- The state of one run of the handler returned by `allowCors`: the response,
and the calls of the wrapped handler so far, oldest first, each with the
response as it was handed over. -/
structure Exec where
  w : ResponseWriter
  served : List (ResponseWriter × Request)

/-- The statement `w.Header().Set(key, value)`. -/
def Exec.setHeader (e : Exec) (key value : GoString) : Exec :=
  { e with w := { e.w with header := e.w.header.Set key value } }

/-- The statement `handler.ServeHTTP(w, req)`. -/
def Exec.ServeHTTP (e : Exec) (handler : Handler) (req : Request) : Exec :=
  { w := handler e.w req, served := e.served ++ [(e.w, req)] }

/-- The value of the local variable `corsAllowOrigin` of `allowCors` when the
headers are written: the configured origin, or, when that is `*` and the
request has a non-empty `Origin`, the origin of the request.  `GetString` is
`viper.GetString`, the lookup in the process-wide configuration. -/
def corsAllowOrigin (GetString : GoString → GoString) (req : Request) : GoString :=
  let corsAllowOrigin := GetString (str "proxy.allow_origin")
  if corsAllowOrigin = str "*" then
    let origin := req.Header.Get (str "Origin")
    if origin ≠ str "" then origin else corsAllowOrigin
  else corsAllowOrigin

/-- Go: the handler returned by `allowCors(handler)`. -/
def allowCors (GetString : GoString → GoString) (handler : Handler)
    (e : Exec) (req : Request) : Exec :=
  let corsAllowOrigin := corsAllowOrigin GetString req
  let e := e.setHeader (str "Access-Control-Allow-Origin") corsAllowOrigin
  let e := e.setHeader (str "Access-Control-Allow-Credentials")
    (GetString (str "proxy.allow_creds"))
  let e := e.setHeader (str "Access-Control-Allow-Methods")
    (GetString (str "proxy.allow_methods"))
  let e := e.setHeader (str "Access-Control-Allow-Headers")
    (GetString (str "proxy.allow_headers"))
  if req.Method = str "OPTIONS"
      ∧ req.Header.Get (str "Access-Control-Request-Method") ≠ str "" then e
  else e.ServeHTTP handler req

/-- The response once the four `Set` statements of `allowCors` have run, written
out for the statements below. -/
def withCorsHeaders (GetString : GoString → GoString) (req : Request)
    (w : ResponseWriter) : ResponseWriter :=
  let h := w.header.Set (str "Access-Control-Allow-Origin") (corsAllowOrigin GetString req)
  let h := h.Set (str "Access-Control-Allow-Credentials") (GetString (str "proxy.allow_creds"))
  let h := h.Set (str "Access-Control-Allow-Methods") (GetString (str "proxy.allow_methods"))
  let h := h.Set (str "Access-Control-Allow-Headers") (GetString (str "proxy.allow_headers"))
  { w with header := h }

/-! ### Sample inputs -/

/-- A header map with the given entries. -/
def Header.ofList (l : List (GoString × List GoString)) : Header := fun k => l.lookup k

/-- A configuration with the wildcard origin. -/
def wildcardConfig : GoString → GoString := fun k =>
  if k = str "proxy.allow_origin" then str "*"
  else if k = str "proxy.allow_creds" then str "true"
  else if k = str "proxy.allow_methods" then str "GET, POST, OPTIONS"
  else if k = str "proxy.allow_headers" then str "Content-Type"
  else str ""

/-- A response that nothing has been written to, and no call of the wrapped
handler so far. -/
def freshExec : Exec := { w := { header := Header.ofList [], status := 0, body := [] }, served := [] }

/-- A wrapped handler: it answers with status 200 and the body `ok`. -/
def okHandler : Handler := fun w _ => { w with status := 200, body := w.body ++ str "ok" }

/-- The request `GET` with `Origin: https://example.com`. -/
def getRequest : Request :=
  { Method := str "GET", Header := Header.ofList [(str "Origin", [str "https://example.com"])] }

/-- The preflight request `OPTIONS` with `Access-Control-Request-Method: POST`. -/
def preflightRequest : Request :=
  { Method := str "OPTIONS",
    Header := Header.ofList [(str "Origin", [str "https://example.com"]),
      (str "Access-Control-Request-Method", [str "POST"])] }

/-- An `OPTIONS` request that carries `Access-Control-Request-Method` with an
empty value. -/
def emptyValueRequest : Request :=
  { Method := str "OPTIONS",
    Header := Header.ofList [(str "Access-Control-Request-Method", [str ""])] }

/-- Lower-casing of one ASCII letter; every other byte is kept. -/
def asciiLower (c : Nat) : Nat :=
  if 'A'.toNat ≤ c ∧ c ≤ 'Z'.toNat then c + 32 else c

/-- Two strings are equal up to the case of their ASCII letters. -/
def eqIgnoreAsciiCase (a b : GoString) : Prop := a.map asciiLower = b.map asciiLower

instance (a b : GoString) : Decidable (eqIgnoreAsciiCase a b) := by
  unfold eqIgnoreAsciiCase; infer_instance

/-- A configuration with one fixed origin. -/
def fixedConfig : GoString → GoString := fun k =>
  if k = str "proxy.allow_origin" then str "https://app.example.org"
  else if k = str "proxy.allow_creds" then str "true"
  else if k = str "proxy.allow_methods" then str "GET, POST, OPTIONS"
  else if k = str "proxy.allow_headers" then str "Content-Type"
  else str ""

/-! ### The special cases of `incomingHeaderMatcher`, tested in another order

`incomingHeaderMatcher` tests three conditions on the canonicalized key, in the
order allowlist, reserved prefix, `Content-Length`.  The function below takes
the order as an argument; it is what the claim on reordering compares
`incomingHeaderMatcher` with. -/

/-- The three special cases of `incomingHeaderMatcher`. -/
inductive SpecialCase where
  | permanent
  | reserved
  | contentLength
  deriving DecidableEq

/-- The condition of a special case, on the canonicalized key. -/
def SpecialCase.test : SpecialCase → GoString → Bool
  | .permanent, key => isPermanentHTTPHeader key
  | .reserved, key => isReserved key
  | .contentLength, key => key == str "Content-Length"

/-- What `incomingHeaderMatcher` returns in a special case. -/
def SpecialCase.result (MetadataPrefix : GoString) : SpecialCase → GoString → GoString × Bool
  | .permanent, key => (MetadataPrefix ++ key, true)
  | .reserved, key => (str "X-" ++ key, true)
  | .contentLength, _ => (str "", false)

/-- The function obtained from `incomingHeaderMatcher` by testing the special
cases in the given order: the first case of `order` whose condition holds
decides, and a key that meets none is forwarded. -/
def incomingHeaderMatcherInOrder (order : List SpecialCase) (MetadataPrefix : GoString)
    (key : GoString) : GoString × Bool :=
  let key := textproto.CanonicalMIMEHeaderKey key
  match order.find? (fun c => c.test key) with
  | some c => c.result MetadataPrefix key
  | none => (key, true)

/-! ## Lemmas on `CanonicalMIMEHeaderKey` -/

namespace textproto

theorem canonicalize_of_quickCheck_false (s : GoString) :
    ∀ upper : Bool, s.all validHeaderFieldByte = true → quickCheck upper s = false →
      canonicalize upper s = s := by
  induction s with
  | nil => intro upper _ _; rfl
  | cons c rest ih =>
    intro upper hv hq
    simp only [List.all_cons, Bool.and_eq_true] at hv
    rw [quickCheck, hv.1] at hq
    simp only [Bool.not_true, Bool.false_eq_true, if_false] at hq
    split at hq
    · exact absurd hq (by decide)
    · split at hq
      · exact absurd hq (by decide)
      · rename_i h1 h2
        rw [canonicalize]
        simp only [if_neg h1, if_neg h2]
        rw [ih _ hv.2 hq]

/-- The quick check is an optimisation only: `CanonicalMIMEHeaderKey` returns what
`canonicalMIMEHeaderKey` returns. -/
theorem CanonicalMIMEHeaderKey_eq (s : GoString) :
    CanonicalMIMEHeaderKey s = canonicalMIMEHeaderKey s := by
  unfold CanonicalMIMEHeaderKey canonicalMIMEHeaderKey
  by_cases hq : quickCheck true s = true
  · simp [hq]
  · simp only [hq, Bool.false_eq_true, if_false]
    by_cases hv : s.all validHeaderFieldByte = true
    · rw [if_pos hv, canonicalize_of_quickCheck_false s true hv (by simpa using hq)]
    · rw [if_neg hv]

theorem validHeaderFieldByte_asciiLower (c : Nat) :
    validHeaderFieldByte (asciiLower c) = validHeaderFieldByte c := by
  unfold asciiLower
  split
  · rename_i h
    have h1 : 65 ≤ c := h.1
    have h2 : c ≤ 90 := h.2
    interval_cases c <;> decide
  · rfl

theorem canonicalize_map_asciiLower (s : GoString) :
    ∀ upper : Bool, canonicalize upper (s.map asciiLower) = canonicalize upper s := by
  induction s with
  | nil => intro upper; rfl
  | cons c rest ih =>
    intro upper
    have hc : ∀ u : Bool,
        (if (u && decide ('a'.toNat ≤ asciiLower c) && decide (asciiLower c ≤ 'z'.toNat)) = true
          then asciiLower c - toLower
          else if (!u && decide ('A'.toNat ≤ asciiLower c)
              && decide (asciiLower c ≤ 'Z'.toNat)) = true
            then asciiLower c + toLower else asciiLower c)
        = (if (u && decide ('a'.toNat ≤ c) && decide (c ≤ 'z'.toNat)) = true then c - toLower
          else if (!u && decide ('A'.toNat ≤ c) && decide (c ≤ 'Z'.toNat)) = true
            then c + toLower else c) := by
      intro u
      have ha : 'a'.toNat = 97 := rfl
      have hz : 'z'.toNat = 122 := rfl
      have hA : 'A'.toNat = 65 := rfl
      have hZ : 'Z'.toNat = 90 := rfl
      have hl : toLower = 32 := rfl
      unfold asciiLower
      rw [ha, hz, hA, hZ, hl]
      cases u <;> simp only [Bool.true_and, Bool.false_and, Bool.not_true, Bool.not_false,
        Bool.false_eq_true, if_false, Bool.and_eq_true, decide_eq_true_eq] <;>
        split_ifs <;> omega
    simp only [List.map_cons, canonicalize]
    rw [hc upper, ih]

/-- What `CanonicalMIMEHeaderKey` computes for a key of valid header field bytes. -/
theorem CanonicalMIMEHeaderKey_of_valid (s : GoString)
    (hv : s.all validHeaderFieldByte = true) :
    CanonicalMIMEHeaderKey s = canonicalize true s := by
  rw [CanonicalMIMEHeaderKey_eq, canonicalMIMEHeaderKey, if_pos hv]

/-- A key with a byte that is no valid header field byte is left as it is. -/
theorem CanonicalMIMEHeaderKey_of_invalid (s : GoString)
    (hv : ¬ s.all validHeaderFieldByte = true) :
    CanonicalMIMEHeaderKey s = s := by
  rw [CanonicalMIMEHeaderKey_eq, canonicalMIMEHeaderKey, if_neg hv]

/-- Keys that differ in letter case only have the same canonical form. -/
theorem CanonicalMIMEHeaderKey_of_eqIgnoreAsciiCase (s t : GoString)
    (ht : t.all validHeaderFieldByte = true) (hst : eqIgnoreAsciiCase s t) :
    CanonicalMIMEHeaderKey s = CanonicalMIMEHeaderKey t := by
  have hmap : ∀ u : GoString,
      (u.map asciiLower).all validHeaderFieldByte = u.all validHeaderFieldByte := by
    intro u
    induction u with
    | nil => rfl
    | cons c rest ih => simp only [List.map_cons, List.all_cons, validHeaderFieldByte_asciiLower, ih]
  have hs : s.all validHeaderFieldByte = true := by
    rw [← hmap s, hst, hmap t]; exact ht
  rw [CanonicalMIMEHeaderKey_of_valid s hs, CanonicalMIMEHeaderKey_of_valid t ht,
    ← canonicalize_map_asciiLower s, ← canonicalize_map_asciiLower t, hst]

end textproto

/-! ## Lemmas on the allowlist and the reserved prefix -/

theorem str_Grpc : str "Grpc-" = [71, 114, 112, 99, 45] := by decide

theorem isReserved_iff (key : GoString) :
    isReserved key = true ↔ ∃ rest, key = 71 :: 114 :: 112 :: 99 :: 45 :: rest := by
  unfold isReserved HasPrefix
  rw [List.isPrefixOf_iff_prefix, str_Grpc]
  constructor
  · rintro ⟨t, ht⟩
    exact ⟨t, by rw [← ht]; rfl⟩
  · rintro ⟨t, ht⟩
    exact ⟨t, by rw [ht]; rfl⟩

/-- Canonicalisation keeps the reserved prefix. -/
theorem isReserved_CanonicalMIMEHeaderKey (key : GoString) (h : isReserved key = true) :
    isReserved (textproto.CanonicalMIMEHeaderKey key) = true := by
  by_cases hv : key.all textproto.validHeaderFieldByte = true
  · rw [textproto.CanonicalMIMEHeaderKey_of_valid key hv]
    obtain ⟨rest, rfl⟩ := (isReserved_iff key).1 h
    exact (isReserved_iff _).2 ⟨textproto.canonicalize true rest, by
      simp [textproto.canonicalize, textproto.toLower]⟩
  · rw [textproto.CanonicalMIMEHeaderKey_of_invalid key hv]; exact h

/-- No name of the allowlist begins with the reserved prefix. -/
theorem isPermanentHTTPHeader_of_isReserved (key : GoString) (h : isReserved key = true) :
    isPermanentHTTPHeader key = false := by
  have hall : ∀ n ∈ permanentHTTPHeaders, isReserved n = false := by decide
  cases hp : isPermanentHTTPHeader key with
  | false => rfl
  | true =>
    unfold isPermanentHTTPHeader at hp
    have hm : key ∈ permanentHTTPHeaders := by simpa using hp
    rw [hall key hm] at h
    exact absurd h (by decide)

/-- Every name of the allowlist is in canonical form. -/
theorem CanonicalMIMEHeaderKey_permanent (key : GoString)
    (h : isPermanentHTTPHeader key = true) : textproto.CanonicalMIMEHeaderKey key = key := by
  have hall : ∀ n ∈ permanentHTTPHeaders, textproto.CanonicalMIMEHeaderKey n = n := by decide
  unfold isPermanentHTTPHeader at h
  exact hall key (by simpa using h)

theorem drop_last_eq_iff (p : GoString) (c : Nat) :
    p.drop (p.length - 1) = [c] ↔ p.getLast? = some c := by
  constructor
  · intro h
    have hp : p = p.take (p.length - 1) ++ [c] := by
      rw [← h, List.take_append_drop]
    rw [hp, List.getLast?_concat]
  · intro h
    obtain ⟨ys, rfl⟩ := List.getLast?_eq_some_iff.1 h
    simp

namespace textproto

/-- Canonicalisation changes the case of letters only. -/
theorem map_asciiLower_canonicalize (s : GoString) :
    ∀ upper : Bool, (canonicalize upper s).map asciiLower = s.map asciiLower := by
  induction s with
  | nil => intro upper; rfl
  | cons c rest ih =>
    intro upper
    have hc : asciiLower
        (if (upper && decide ('a'.toNat ≤ c) && decide (c ≤ 'z'.toNat)) = true then c - toLower
          else if (!upper && decide ('A'.toNat ≤ c) && decide (c ≤ 'Z'.toNat)) = true
            then c + toLower else c) = asciiLower c := by
      have ha : 'a'.toNat = 97 := rfl
      have hz : 'z'.toNat = 122 := rfl
      have hA : 'A'.toNat = 65 := rfl
      have hZ : 'Z'.toNat = 90 := rfl
      have hl : toLower = 32 := rfl
      unfold asciiLower
      rw [ha, hz, hA, hZ, hl]
      cases upper <;> simp only [Bool.true_and, Bool.false_and, Bool.not_true, Bool.not_false,
        Bool.false_eq_true, if_false, Bool.and_eq_true, decide_eq_true_eq] <;>
        split_ifs <;> omega
    simp only [canonicalize, List.map_cons, hc, ih]

theorem eqIgnoreAsciiCase_CanonicalMIMEHeaderKey (s : GoString) :
    eqIgnoreAsciiCase (CanonicalMIMEHeaderKey s) s := by
  unfold eqIgnoreAsciiCase
  by_cases hv : s.all validHeaderFieldByte = true
  · rw [CanonicalMIMEHeaderKey_of_valid s hv, map_asciiLower_canonicalize]
  · rw [CanonicalMIMEHeaderKey_of_invalid s hv]

end textproto

/-! ## Inbound header translation -/

/-- C1: for each of the 24 names `h` of the permanent-header allowlist,
`CanonicalMIMEHeaderKey` leaves `h` as it is and `incomingHeaderMatcher`
returns the metadata prefix followed by the canonical name, which is `h`
itself, with `true`. -/
theorem incomingHeaderMatcher_permanent (MetadataPrefix h : GoString)
    (hp : isPermanentHTTPHeader h = true) :
    permanentHTTPHeaders.length = 24 ∧
    textproto.CanonicalMIMEHeaderKey h = h ∧
    incomingHeaderMatcher MetadataPrefix h
      = (MetadataPrefix ++ textproto.CanonicalMIMEHeaderKey h, true) ∧
    incomingHeaderMatcher MetadataPrefix h = (MetadataPrefix ++ h, true) := by
  have hc := CanonicalMIMEHeaderKey_permanent h hp
  refine ⟨by decide, hc, ?_, ?_⟩ <;>
    simp only [incomingHeaderMatcher, hc, hp, if_true]

theorem incomingHeaderMatcher_permanent_witness :
    isPermanentHTTPHeader (str "User-Agent") = true ∧
    incomingHeaderMatcher (str "grpcgateway-") (str "User-Agent")
      = (str "grpcgateway-" ++ str "User-Agent", true) :=
  ⟨by decide,
    (incomingHeaderMatcher_permanent (str "grpcgateway-") (str "User-Agent") (by decide)).2.2.2⟩

/-- C2: for every header name `h` that begins with the bytes `Grpc-` and is not
in the permanent allowlist, `incomingHeaderMatcher` returns `X-` followed by
the canonical form of `h`, with `true`; the canonical form still begins with
`Grpc-`. -/
theorem incomingHeaderMatcher_reserved (MetadataPrefix h : GoString)
    (hr : HasPrefix h (str "Grpc-") = true) (_hp : isPermanentHTTPHeader h = false) :
    HasPrefix (textproto.CanonicalMIMEHeaderKey h) (str "Grpc-") = true ∧
    incomingHeaderMatcher MetadataPrefix h
      = (str "X-" ++ textproto.CanonicalMIMEHeaderKey h, true) := by
  have hk : isReserved (textproto.CanonicalMIMEHeaderKey h) = true :=
    isReserved_CanonicalMIMEHeaderKey h hr
  have hn := isPermanentHTTPHeader_of_isReserved _ hk
  refine ⟨hk, ?_⟩
  simp only [incomingHeaderMatcher, hn, hk, if_true, Bool.false_eq_true, if_false]

theorem incomingHeaderMatcher_reserved_witness :
    (HasPrefix (str "Grpc-tIMEOUT") (str "Grpc-") = true ∧
      isPermanentHTTPHeader (str "Grpc-tIMEOUT") = false) ∧
    incomingHeaderMatcher (str "grpcgateway-") (str "Grpc-tIMEOUT")
      = (str "X-Grpc-Timeout", true) :=
  ⟨by decide,
    (incomingHeaderMatcher_reserved (str "grpcgateway-") (str "Grpc-tIMEOUT")
      (by decide) (by decide)).2.trans (by decide)⟩

/-- C3: for every header name `h` that equals `Content-Length` up to the case of
its ASCII letters, `incomingHeaderMatcher` returns the empty key and `false`. -/
theorem incomingHeaderMatcher_contentLength (MetadataPrefix h : GoString)
    (hc : eqIgnoreAsciiCase h (str "Content-Length")) :
    incomingHeaderMatcher MetadataPrefix h = (str "", false) := by
  have hk : textproto.CanonicalMIMEHeaderKey h = str "Content-Length" := by
    rw [textproto.CanonicalMIMEHeaderKey_of_eqIgnoreAsciiCase h (str "Content-Length")
      (by decide) hc]
    decide
  have h1 : isPermanentHTTPHeader (str "Content-Length") = false := by decide
  have h2 : isReserved (str "Content-Length") = false := by decide
  simp only [incomingHeaderMatcher, hk, h1, h2, Bool.false_eq_true, if_false, beq_self_eq_true,
    if_true]

theorem incomingHeaderMatcher_contentLength_witness :
    eqIgnoreAsciiCase (str "CONTENT-length") (str "Content-Length") ∧
    incomingHeaderMatcher (str "grpcgateway-") (str "CONTENT-length") = (str "", false) :=
  ⟨by decide,
    incomingHeaderMatcher_contentLength (str "grpcgateway-") (str "CONTENT-length") (by decide)⟩

/-- C4, as stated, fails: `grpc-timeout` is not in the allowlist, does not begin
with the bytes `Grpc-` and is not `Content-Length` in any casing, yet it is
mapped to `X-Grpc-Timeout` and not to its canonical form `Grpc-Timeout`;
likewise `user-agent` is mapped to the prefixed `User-Agent`. -/
theorem incomingHeaderMatcher_other_counterexample :
    (isPermanentHTTPHeader (str "grpc-timeout") = false ∧
      HasPrefix (str "grpc-timeout") (str "Grpc-") = false ∧
      ¬ eqIgnoreAsciiCase (str "grpc-timeout") (str "Content-Length") ∧
      textproto.CanonicalMIMEHeaderKey (str "grpc-timeout") = str "Grpc-Timeout" ∧
      incomingHeaderMatcher (str "grpcgateway-") (str "grpc-timeout")
        = (str "X-Grpc-Timeout", true) ∧
      incomingHeaderMatcher (str "grpcgateway-") (str "grpc-timeout")
        ≠ (textproto.CanonicalMIMEHeaderKey (str "grpc-timeout"), true)) ∧
    (isPermanentHTTPHeader (str "user-agent") = false ∧
      HasPrefix (str "user-agent") (str "Grpc-") = false ∧
      ¬ eqIgnoreAsciiCase (str "user-agent") (str "Content-Length") ∧
      textproto.CanonicalMIMEHeaderKey (str "user-agent") = str "User-Agent" ∧
      incomingHeaderMatcher (str "grpcgateway-") (str "user-agent")
        = (str "grpcgateway-User-Agent", true) ∧
      incomingHeaderMatcher (str "grpcgateway-") (str "user-agent")
        ≠ (textproto.CanonicalMIMEHeaderKey (str "user-agent"), true)) := by
  decide

/-- C4, amended: for every header name `h` whose canonical form is not in the
permanent allowlist and does not begin with the bytes `Grpc-`, and which is
not `Content-Length` in any casing, `incomingHeaderMatcher` returns the
canonical form of `h` with `true`. -/
theorem incomingHeaderMatcher_other (MetadataPrefix h : GoString)
    (hp : isPermanentHTTPHeader (textproto.CanonicalMIMEHeaderKey h) = false)
    (hr : HasPrefix (textproto.CanonicalMIMEHeaderKey h) (str "Grpc-") = false)
    (hc : ¬ eqIgnoreAsciiCase h (str "Content-Length")) :
    incomingHeaderMatcher MetadataPrefix h = (textproto.CanonicalMIMEHeaderKey h, true) := by
  have hk : textproto.CanonicalMIMEHeaderKey h ≠ str "Content-Length" := by
    intro heq
    apply hc
    have := textproto.eqIgnoreAsciiCase_CanonicalMIMEHeaderKey h
    rw [heq] at this
    exact this.symm
  have hr1 : isReserved (textproto.CanonicalMIMEHeaderKey h) = false := hr
  simp only [incomingHeaderMatcher, hp, hr1, Bool.false_eq_true, if_false, beq_iff_eq, hk]

theorem incomingHeaderMatcher_other_witness :
    (isPermanentHTTPHeader (textproto.CanonicalMIMEHeaderKey (str "x-request-id")) = false ∧
      HasPrefix (textproto.CanonicalMIMEHeaderKey (str "x-request-id")) (str "Grpc-") = false ∧
      ¬ eqIgnoreAsciiCase (str "x-request-id") (str "Content-Length")) ∧
    incomingHeaderMatcher (str "grpcgateway-") (str "x-request-id")
      = (str "X-Request-Id", true) :=
  ⟨by decide,
    (incomingHeaderMatcher_other (str "grpcgateway-") (str "x-request-id")
      (by decide) (by decide) (by decide)).trans (by decide)⟩

/-! ## Outbound metadata translation -/

/-- C5: `outgoingHeaderMatcher` is the identity with unconditional acceptance:
for every string `m`, the empty one and those beginning with `Grpc-` included,
it returns `m` and `true`. -/
theorem outgoingHeaderMatcher_identity (m : GoString) :
    outgoingHeaderMatcher m = (m, true) := rfl

/-! ## Path-prefix normalizer -/

/-- C6: for every string, the result of `sanitizeApiPrefix` is non-empty and its
last byte is the slash. -/
theorem sanitizeApiPrefix_slash (pfx : GoString) :
    (sanitizeApiPrefix pfx).length ≠ 0 ∧
    (sanitizeApiPrefix pfx).getLast? = some '/'.toNat := by
  unfold sanitizeApiPrefix
  split
  · exact ⟨by simp [str], List.getLast?_concat pfx⟩
  · rename_i h
    simp only [Bool.or_eq_true, beq_iff_eq, bne_iff_ne, ne_eq, not_or, not_not] at h
    exact ⟨h.1, (drop_last_eq_iff pfx _).1 h.2⟩

/-- C7: `sanitizeApiPrefix` returns its argument when that is non-empty and ends
with the slash, and the argument followed by a slash in every other case; the
empty string gives `/`, `api` gives `api/` and `api/` gives `api/`. -/
theorem sanitizeApiPrefix_spec (pfx : GoString) :
    sanitizeApiPrefix pfx
      = (if pfx.length ≠ 0 ∧ pfx.getLast? = some '/'.toNat then pfx else pfx ++ str "/") ∧
    sanitizeApiPrefix (str "") = str "/" ∧
    sanitizeApiPrefix (str "api") = str "api/" ∧
    sanitizeApiPrefix (str "api/") = str "api/" := by
  refine ⟨?_, by decide, by decide, by decide⟩
  unfold sanitizeApiPrefix
  by_cases h : pfx.length ≠ 0 ∧ pfx.getLast? = some '/'.toNat
  · have hd : pfx.drop (pfx.length - 1) = str "/" := (drop_last_eq_iff pfx _).2 h.2
    rw [if_pos h, if_neg]
    simp [h.1, hd]
  · rw [if_neg h, if_pos]
    by_cases h0 : pfx.length = 0
    · simp [h0]
    · have hl : ¬ pfx.getLast? = some '/'.toNat := fun hl => h ⟨h0, hl⟩
      have hd : ¬ pfx.drop (pfx.length - 1) = str "/" :=
        fun hd => hl ((drop_last_eq_iff pfx _).1 hd)
      simp [hd]

/-! ## CORS decorator -/

theorem Header.Set_same (h : Header) (key value : GoString) :
    h.Set key value (textproto.CanonicalMIMEHeaderKey key) = some [value] := by
  simp [Header.Set]

theorem Header.Set_other (h : Header) (key value k : GoString)
    (hk : k ≠ textproto.CanonicalMIMEHeaderKey key) : h.Set key value k = h k := by
  simp [Header.Set, hk]

/-- The handler returned by `allowCors` writes the four headers and then either
stops or hands over to the wrapped handler. -/
theorem allowCors_eq (GetString : GoString → GoString) (handler : Handler)
    (e : Exec) (req : Request) :
    allowCors GetString handler e req =
      if req.Method = str "OPTIONS"
          ∧ req.Header.Get (str "Access-Control-Request-Method") ≠ str "" then
        { w := withCorsHeaders GetString req e.w, served := e.served }
      else
        { w := handler (withCorsHeaders GetString req e.w) req,
          served := e.served ++ [(withCorsHeaders GetString req e.w, req)] } := by
  unfold allowCors
  split <;> rfl

/-- The four headers of the response once `allowCors` has written them; status
and body are as before. -/
theorem withCorsHeaders_spec (GetString : GoString → GoString) (req : Request)
    (w : ResponseWriter) :
    (withCorsHeaders GetString req w).header (str "Access-Control-Allow-Origin")
      = some [corsAllowOrigin GetString req] ∧
    (withCorsHeaders GetString req w).header (str "Access-Control-Allow-Credentials")
      = some [GetString (str "proxy.allow_creds")] ∧
    (withCorsHeaders GetString req w).header (str "Access-Control-Allow-Methods")
      = some [GetString (str "proxy.allow_methods")] ∧
    (withCorsHeaders GetString req w).header (str "Access-Control-Allow-Headers")
      = some [GetString (str "proxy.allow_headers")] ∧
    (withCorsHeaders GetString req w).status = w.status ∧
    (withCorsHeaders GetString req w).body = w.body := by
  have c1 : textproto.CanonicalMIMEHeaderKey (str "Access-Control-Allow-Origin")
      = str "Access-Control-Allow-Origin" := by decide
  have c2 : textproto.CanonicalMIMEHeaderKey (str "Access-Control-Allow-Credentials")
      = str "Access-Control-Allow-Credentials" := by decide
  have c3 : textproto.CanonicalMIMEHeaderKey (str "Access-Control-Allow-Methods")
      = str "Access-Control-Allow-Methods" := by decide
  have c4 : textproto.CanonicalMIMEHeaderKey (str "Access-Control-Allow-Headers")
      = str "Access-Control-Allow-Headers" := by decide
  have n12 : str "Access-Control-Allow-Origin" ≠ str "Access-Control-Allow-Credentials" := by
    decide
  have n13 : str "Access-Control-Allow-Origin" ≠ str "Access-Control-Allow-Methods" := by
    decide
  have n14 : str "Access-Control-Allow-Origin" ≠ str "Access-Control-Allow-Headers" := by
    decide
  have n23 : str "Access-Control-Allow-Credentials" ≠ str "Access-Control-Allow-Methods" := by
    decide
  have n24 : str "Access-Control-Allow-Credentials" ≠ str "Access-Control-Allow-Headers" := by
    decide
  have n34 : str "Access-Control-Allow-Methods" ≠ str "Access-Control-Allow-Headers" := by
    decide
  refine ⟨?_, ?_, ?_, ?_, rfl, rfl⟩ <;>
    simp only [withCorsHeaders, Header.Set, c1, c2, c3, c4, n12, n13, n14, n23, n24, n34,
      if_true, if_false]

/-- C8, as stated, fails: an `OPTIONS` request that carries
`Access-Control-Request-Method` with an empty value is handed to the wrapped
handler, which is invoked once. -/
theorem allowCors_preflight_counterexample :
    emptyValueRequest.Method = str "OPTIONS" ∧
    emptyValueRequest.Header (str "Access-Control-Request-Method") = some [str ""] ∧
    freshExec.served.length = 0 ∧
    (allowCors wildcardConfig okHandler freshExec emptyValueRequest).served.length = 1 ∧
    (allowCors wildcardConfig okHandler freshExec emptyValueRequest).w.status = 200 := by
  decide

/-- C8, amended: for every `OPTIONS` request whose `Access-Control-Request-Method`
header has a non-empty first value, the handler returned by `allowCors` sets
the four CORS response headers, leaves status and body alone and does not
invoke the wrapped handler: the log of its calls is as before. -/
theorem allowCors_preflight (GetString : GoString → GoString) (handler : Handler)
    (e : Exec) (req : Request) (hm : req.Method = str "OPTIONS")
    (hh : req.Header.Get (str "Access-Control-Request-Method") ≠ str "") :
    (allowCors GetString handler e req).served = e.served ∧
    (allowCors GetString handler e req).w.header (str "Access-Control-Allow-Origin")
      = some [corsAllowOrigin GetString req] ∧
    (allowCors GetString handler e req).w.header (str "Access-Control-Allow-Credentials")
      = some [GetString (str "proxy.allow_creds")] ∧
    (allowCors GetString handler e req).w.header (str "Access-Control-Allow-Methods")
      = some [GetString (str "proxy.allow_methods")] ∧
    (allowCors GetString handler e req).w.header (str "Access-Control-Allow-Headers")
      = some [GetString (str "proxy.allow_headers")] ∧
    (allowCors GetString handler e req).w.status = e.w.status ∧
    (allowCors GetString handler e req).w.body = e.w.body := by
  rw [allowCors_eq, if_pos ⟨hm, hh⟩]
  exact ⟨rfl, withCorsHeaders_spec GetString req e.w⟩

theorem allowCors_preflight_witness :
    (preflightRequest.Method = str "OPTIONS" ∧
      preflightRequest.Header.Get (str "Access-Control-Request-Method") ≠ str "") ∧
    (allowCors wildcardConfig okHandler freshExec preflightRequest).served = [] ∧
    (allowCors wildcardConfig okHandler freshExec preflightRequest).w.header
      (str "Access-Control-Allow-Methods") = some [str "GET, POST, OPTIONS"] :=
  ⟨by decide,
    (allowCors_preflight wildcardConfig okHandler freshExec preflightRequest
      (by decide) (by decide)).1,
    (allowCors_preflight wildcardConfig okHandler freshExec preflightRequest
      (by decide) (by decide)).2.2.2.1.trans (by decide)⟩

/-- C9: for every request that is not a preflight (its method is not `OPTIONS`,
or `Access-Control-Request-Method` is absent or empty), the handler returned
by `allowCors` invokes the wrapped handler exactly once, with this request and
a response in which the four CORS headers are set, and its result is the
result of that call. -/
theorem allowCors_delegates (GetString : GoString → GoString) (handler : Handler)
    (e : Exec) (req : Request)
    (hn : req.Method ≠ str "OPTIONS"
      ∨ req.Header.Get (str "Access-Control-Request-Method") = str "") :
    ∃ w0 : ResponseWriter,
      (allowCors GetString handler e req).served = e.served ++ [(w0, req)] ∧
      (allowCors GetString handler e req).w = handler w0 req ∧
      w0.header (str "Access-Control-Allow-Origin") = some [corsAllowOrigin GetString req] ∧
      w0.header (str "Access-Control-Allow-Credentials")
        = some [GetString (str "proxy.allow_creds")] ∧
      w0.header (str "Access-Control-Allow-Methods")
        = some [GetString (str "proxy.allow_methods")] ∧
      w0.header (str "Access-Control-Allow-Headers")
        = some [GetString (str "proxy.allow_headers")] ∧
      w0.status = e.w.status ∧ w0.body = e.w.body := by
  have hif : ¬ (req.Method = str "OPTIONS"
      ∧ req.Header.Get (str "Access-Control-Request-Method") ≠ str "") := by
    rintro ⟨h1, h2⟩
    rcases hn with h | h
    · exact h h1
    · exact h2 h
  refine ⟨withCorsHeaders GetString req e.w, ?_, ?_, withCorsHeaders_spec GetString req e.w⟩
  · rw [allowCors_eq, if_neg hif]
  · rw [allowCors_eq, if_neg hif]

theorem allowCors_delegates_witness :
    (getRequest.Method ≠ str "OPTIONS"
      ∨ getRequest.Header.Get (str "Access-Control-Request-Method") = str "") ∧
    ∃ w0 : ResponseWriter,
      (allowCors wildcardConfig okHandler freshExec getRequest).served
        = freshExec.served ++ [(w0, getRequest)] ∧
      (allowCors wildcardConfig okHandler freshExec getRequest).w = okHandler w0 getRequest ∧
      w0.header (str "Access-Control-Allow-Origin")
        = some [corsAllowOrigin wildcardConfig getRequest] ∧
      w0.header (str "Access-Control-Allow-Credentials")
        = some [wildcardConfig (str "proxy.allow_creds")] ∧
      w0.header (str "Access-Control-Allow-Methods")
        = some [wildcardConfig (str "proxy.allow_methods")] ∧
      w0.header (str "Access-Control-Allow-Headers")
        = some [wildcardConfig (str "proxy.allow_headers")] ∧
      w0.status = freshExec.w.status ∧ w0.body = freshExec.w.body :=
  ⟨by decide, allowCors_delegates wildcardConfig okHandler freshExec getRequest (by decide)⟩

/-- C10: when the configured `proxy.allow_origin` is `*` and the request has a
non-empty `Origin` value `o`, the `Access-Control-Allow-Origin` header that
`allowCors` sets is `o`: it is so in the response a preflight ends with, and
in the response handed to the wrapped handler otherwise. -/
theorem allowCors_reflects_origin (GetString : GoString → GoString) (handler : Handler)
    (e : Exec) (req : Request) (o : GoString)
    (hs : GetString (str "proxy.allow_origin") = str "*")
    (ho : req.Header.Get (str "Origin") = o) (hne : o ≠ str "") :
    ∃ w0 : ResponseWriter,
      w0.header (str "Access-Control-Allow-Origin") = some [o] ∧
      allowCors GetString handler e req =
        if req.Method = str "OPTIONS"
            ∧ req.Header.Get (str "Access-Control-Request-Method") ≠ str "" then
          { w := w0, served := e.served }
        else { w := handler w0 req, served := e.served ++ [(w0, req)] } := by
  have hv : corsAllowOrigin GetString req = o := by
    unfold corsAllowOrigin
    simp only [hs, ho, if_true, ne_eq, hne, not_false_eq_true]
  refine ⟨withCorsHeaders GetString req e.w, ?_, allowCors_eq GetString handler e req⟩
  rw [(withCorsHeaders_spec GetString req e.w).1, hv]

theorem allowCors_reflects_origin_witness :
    (wildcardConfig (str "proxy.allow_origin") = str "*" ∧
      getRequest.Header.Get (str "Origin") = str "https://example.com" ∧
      str "https://example.com" ≠ str "") ∧
    ∃ w0 : ResponseWriter,
      w0.header (str "Access-Control-Allow-Origin") = some [str "https://example.com"] ∧
      allowCors wildcardConfig okHandler freshExec getRequest =
        if getRequest.Method = str "OPTIONS"
            ∧ getRequest.Header.Get (str "Access-Control-Request-Method") ≠ str "" then
          { w := w0, served := freshExec.served }
        else { w := okHandler w0 getRequest, served := freshExec.served ++ [(w0, getRequest)] } :=
  ⟨by decide, allowCors_reflects_origin wildcardConfig okHandler freshExec getRequest
    (str "https://example.com") (by decide) (by decide) (by decide)⟩

/-- The four header names that `allowCors` writes are in canonical form. -/
theorem CanonicalMIMEHeaderKey_cors :
    textproto.CanonicalMIMEHeaderKey (str "Access-Control-Allow-Origin")
      = str "Access-Control-Allow-Origin" ∧
    textproto.CanonicalMIMEHeaderKey (str "Access-Control-Allow-Credentials")
      = str "Access-Control-Allow-Credentials" ∧
    textproto.CanonicalMIMEHeaderKey (str "Access-Control-Allow-Methods")
      = str "Access-Control-Allow-Methods" ∧
    textproto.CanonicalMIMEHeaderKey (str "Access-Control-Allow-Headers")
      = str "Access-Control-Allow-Headers" := by
  decide

/-- The whole header map of the response once `allowCors` has written to it. -/
theorem withCorsHeaders_header (GetString : GoString → GoString) (req : Request)
    (w : ResponseWriter) (k : GoString) :
    (withCorsHeaders GetString req w).header k =
      if k = str "Access-Control-Allow-Headers" then
        some [GetString (str "proxy.allow_headers")]
      else if k = str "Access-Control-Allow-Methods" then
        some [GetString (str "proxy.allow_methods")]
      else if k = str "Access-Control-Allow-Credentials" then
        some [GetString (str "proxy.allow_creds")]
      else if k = str "Access-Control-Allow-Origin" then
        some [corsAllowOrigin GetString req]
      else w.header k := by
  obtain ⟨c1, c2, c3, c4⟩ := CanonicalMIMEHeaderKey_cors
  simp only [withCorsHeaders, Header.Set, c1, c2, c3, c4]

/-- C11: for every request and configuration, on the preflight and on the
delegating path, `allowCors` sets `Access-Control-Allow-Credentials`,
`Access-Control-Allow-Methods` and `Access-Control-Allow-Headers` to the single
configured value, whatever the response held before, sets
`Access-Control-Allow-Origin`, and leaves every other response header, the
status and the body as they were. -/
theorem allowCors_frame (GetString : GoString → GoString) (handler : Handler)
    (e : Exec) (req : Request) :
    ∃ w0 : ResponseWriter,
      (allowCors GetString handler e req =
        if req.Method = str "OPTIONS"
            ∧ req.Header.Get (str "Access-Control-Request-Method") ≠ str "" then
          { w := w0, served := e.served }
        else { w := handler w0 req, served := e.served ++ [(w0, req)] }) ∧
      (∀ k : GoString, w0.header k =
        if k = str "Access-Control-Allow-Headers" then
          some [GetString (str "proxy.allow_headers")]
        else if k = str "Access-Control-Allow-Methods" then
          some [GetString (str "proxy.allow_methods")]
        else if k = str "Access-Control-Allow-Credentials" then
          some [GetString (str "proxy.allow_creds")]
        else if k = str "Access-Control-Allow-Origin" then
          some [corsAllowOrigin GetString req]
        else e.w.header k) ∧
      w0.status = e.w.status ∧ w0.body = e.w.body :=
  ⟨withCorsHeaders GetString req e.w, allowCors_eq GetString handler e req,
    withCorsHeaders_header GetString req e.w, rfl, rfl⟩

/-- C12: when the configured `proxy.allow_origin` is not `*`, or the `Origin` of
the request is absent or empty, the `Access-Control-Allow-Origin` header that
`allowCors` sets is the configured value, whatever the request is. -/
theorem allowCors_configured_origin (GetString : GoString → GoString) (handler : Handler)
    (e : Exec) (req : Request)
    (hc : GetString (str "proxy.allow_origin") ≠ str "*"
      ∨ req.Header.Get (str "Origin") = str "") :
    corsAllowOrigin GetString req = GetString (str "proxy.allow_origin") ∧
    ∃ w0 : ResponseWriter,
      w0.header (str "Access-Control-Allow-Origin")
        = some [GetString (str "proxy.allow_origin")] ∧
      allowCors GetString handler e req =
        if req.Method = str "OPTIONS"
            ∧ req.Header.Get (str "Access-Control-Request-Method") ≠ str "" then
          { w := w0, served := e.served }
        else { w := handler w0 req, served := e.served ++ [(w0, req)] } := by
  have hv : corsAllowOrigin GetString req = GetString (str "proxy.allow_origin") := by
    unfold corsAllowOrigin
    rcases hc with h | h
    · simp only [h, if_false]
    · simp only [h, ne_eq, not_true_eq_false, if_false, ite_self]
  refine ⟨hv, withCorsHeaders GetString req e.w, ?_, allowCors_eq GetString handler e req⟩
  rw [(withCorsHeaders_spec GetString req e.w).1, hv]

theorem allowCors_configured_origin_witness :
    (fixedConfig (str "proxy.allow_origin") ≠ str "*"
      ∨ getRequest.Header.Get (str "Origin") = str "") ∧
    corsAllowOrigin fixedConfig getRequest = str "https://app.example.org" ∧
    getRequest.Header.Get (str "Origin") = str "https://example.com" :=
  ⟨by decide,
    (allowCors_configured_origin fixedConfig okHandler freshExec getRequest (by decide)).1.trans
      (by decide),
    by decide⟩

/-! ## Inbound header translation: dropped and forwarded keys -/

theorem isPermanentHTTPHeader_ContentLength :
    isPermanentHTTPHeader (str "Content-Length") = false := by decide

theorem isReserved_ContentLength : isReserved (str "Content-Length") = false := by decide

/-- Every name of the allowlist is made of valid header field bytes. -/
theorem validHeaderFieldByte_permanent (key : GoString)
    (h : isPermanentHTTPHeader key = true) :
    key.all textproto.validHeaderFieldByte = true := by
  have hall : ∀ n ∈ permanentHTTPHeaders, n.all textproto.validHeaderFieldByte = true := by
    decide
  unfold isPermanentHTTPHeader at h
  exact hall key (by simpa using h)

/-- C13: `incomingHeaderMatcher` drops a header exactly when its canonical form
is `Content-Length`: the returned boolean is `false` if and only if it is, the
returned key is then empty, and the boolean is `true` for every other name;
the empty name is forwarded as it is. -/
theorem incomingHeaderMatcher_drops_iff (MetadataPrefix h : GoString) :
    ((incomingHeaderMatcher MetadataPrefix h).2 = false
      ↔ textproto.CanonicalMIMEHeaderKey h = str "Content-Length") ∧
    incomingHeaderMatcher MetadataPrefix h =
      (if textproto.CanonicalMIMEHeaderKey h = str "Content-Length" then (str "", false)
        else ((incomingHeaderMatcher MetadataPrefix h).1, true)) ∧
    incomingHeaderMatcher MetadataPrefix (str "") = (str "", true) := by
  have hempty : incomingHeaderMatcher MetadataPrefix (str "") = (str "", true) := by
    have h0 : textproto.CanonicalMIMEHeaderKey (str "") = str "" := by decide
    have h1 : isPermanentHTTPHeader (str "") = false := by decide
    have h2 : isReserved (str "") = false := by decide
    have h3 : (str "" == str "Content-Length") = false := by decide
    simp only [incomingHeaderMatcher, h0, h1, h2, h3, Bool.false_eq_true, if_false]
  by_cases hk : textproto.CanonicalMIMEHeaderKey h = str "Content-Length"
  · have hr : incomingHeaderMatcher MetadataPrefix h = (str "", false) := by
      simp only [incomingHeaderMatcher, hk, isPermanentHTTPHeader_ContentLength,
        isReserved_ContentLength, Bool.false_eq_true, if_false, beq_self_eq_true, if_true]
    refine ⟨?_, ?_, hempty⟩
    · rw [hr]; exact ⟨fun _ => hk, fun _ => rfl⟩
    · rw [if_pos hk]; exact hr
  · have hb : (incomingHeaderMatcher MetadataPrefix h).2 = true := by
      simp only [incomingHeaderMatcher]
      split
      · rfl
      · split
        · rfl
        · rw [if_neg (by simpa using hk)]
    refine ⟨?_, ?_, hempty⟩
    · rw [hb]
      exact ⟨fun hf => absurd hf (by decide), fun hc => absurd hc hk⟩
    · rw [if_neg hk, ← hb]

/-- C14: every name `n` of the allowlist is a fixed point of
`CanonicalMIMEHeaderKey`, and for every `h` that differs from `n` in the case
of ASCII letters only, `incomingHeaderMatcher` returns the metadata prefix
followed by `n`, with `true`. -/
theorem incomingHeaderMatcher_permanent_anycase (MetadataPrefix n h : GoString)
    (hn : isPermanentHTTPHeader n = true) (hh : eqIgnoreAsciiCase h n) :
    textproto.CanonicalMIMEHeaderKey n = n ∧
    incomingHeaderMatcher MetadataPrefix h = (MetadataPrefix ++ n, true) := by
  have hfix := CanonicalMIMEHeaderKey_permanent n hn
  have hc : textproto.CanonicalMIMEHeaderKey h = n := by
    rw [textproto.CanonicalMIMEHeaderKey_of_eqIgnoreAsciiCase h n
      (validHeaderFieldByte_permanent n hn) hh, hfix]
  refine ⟨hfix, ?_⟩
  simp only [incomingHeaderMatcher, hc, hn, if_true]

theorem incomingHeaderMatcher_permanent_anycase_witness :
    (isPermanentHTTPHeader (str "If-None-Match") = true ∧
      eqIgnoreAsciiCase (str "IF-NONE-MATCH") (str "If-None-Match")) ∧
    incomingHeaderMatcher (str "grpcgateway-") (str "IF-NONE-MATCH")
      = (str "grpcgateway-If-None-Match", true) :=
  ⟨by decide,
    (incomingHeaderMatcher_permanent_anycase (str "grpcgateway-") (str "If-None-Match")
      (str "IF-NONE-MATCH") (by decide) (by decide)).2.trans (by decide)⟩

/-- C15: with the metadata prefix `grpcgateway-`, a key that
`incomingHeaderMatcher` forwards never begins with the bytes `Grpc-`. -/
theorem incomingHeaderMatcher_not_reserved (h k : GoString)
    (hk : incomingHeaderMatcher (str "grpcgateway-") h = (k, true)) :
    HasPrefix k (str "Grpc-") = false := by
  have hg : str "grpcgateway-" = 103 :: (str "rpcgateway-") := by decide
  have hx : str "X-" = 88 :: (str "-") := by decide
  simp only [incomingHeaderMatcher] at hk
  split at hk
  · have := (Prod.mk.inj hk).1
    rw [← this, hg, HasPrefix, str_Grpc]
    rfl
  · split at hk
    · have := (Prod.mk.inj hk).1
      rw [← this, hx, HasPrefix, str_Grpc]
      rfl
    · rename_i hp hr
      split at hk
      · exact absurd (Prod.mk.inj hk).2 (by decide)
      · have := (Prod.mk.inj hk).1
        rw [← this]
        simpa [isReserved] using hr

theorem incomingHeaderMatcher_not_reserved_witness :
    incomingHeaderMatcher (str "grpcgateway-") (str "grpc-timeout")
      = (str "X-Grpc-Timeout", true) ∧
    HasPrefix (str "X-Grpc-Timeout") (str "Grpc-") = false :=
  ⟨by decide,
    incomingHeaderMatcher_not_reserved (str "grpc-timeout") (str "X-Grpc-Timeout") (by decide)⟩

/-! ## Inbound header translation: order of the tests and collisions -/

/-- At most one special case holds of a key. -/
theorem SpecialCase.test_unique (key : GoString) (c d : SpecialCase)
    (hc : c.test key = true) (hd : d.test key = true) : c = d := by
  have hpr : isPermanentHTTPHeader key = true → isReserved key = true → False := by
    intro h1 h2
    rw [isPermanentHTTPHeader_of_isReserved key h2] at h1
    exact absurd h1 (by decide)
  have hpc : isPermanentHTTPHeader key = true → (key == str "Content-Length") = true
      → False := by
    intro h1 h2
    rw [beq_iff_eq] at h2
    rw [h2, isPermanentHTTPHeader_ContentLength] at h1
    exact absurd h1 (by decide)
  have hrc : isReserved key = true → (key == str "Content-Length") = true → False := by
    intro h1 h2
    rw [beq_iff_eq] at h2
    rw [h2, isReserved_ContentLength] at h1
    exact absurd h1 (by decide)
  cases c <;> cases d <;> simp only [SpecialCase.test] at hc hd <;>
    first
      | rfl
      | exact (hpr hc hd).elim
      | exact (hpr hd hc).elim
      | exact (hpc hc hd).elim
      | exact (hpc hd hc).elim
      | exact (hrc hc hd).elim
      | exact (hrc hd hc).elim

/-- In an order that lists every special case, the first case that holds of a
key is the only one that does. -/
theorem SpecialCase.find_of_test (order : List SpecialCase) (key : GoString)
    (c : SpecialCase) (hmem : c ∈ order) (hc : c.test key = true) :
    order.find? (fun d => d.test key) = some c := by
  cases hf : order.find? (fun d => d.test key) with
  | none =>
    have := List.find?_eq_none.1 hf c hmem
    exact absurd hc (by simpa using this)
  | some d =>
    have hd : d.test key = true := by simpa using List.find?_some hf
    rw [SpecialCase.test_unique key d c hd hc]

theorem SpecialCase.find_of_no_test (order : List SpecialCase) (key : GoString)
    (h : ∀ c : SpecialCase, c.test key = false) :
    order.find? (fun d => d.test key) = none := by
  rw [List.find?_eq_none]
  intro d _
  simp [h d]

/-- Testing the special cases in an order that lists each of them gives what
`incomingHeaderMatcher` gives. -/
theorem incomingHeaderMatcherInOrder_eq (order : List SpecialCase)
    (hall : ∀ c : SpecialCase, c ∈ order) (MetadataPrefix h : GoString) :
    incomingHeaderMatcherInOrder order MetadataPrefix h
      = incomingHeaderMatcher MetadataPrefix h := by
  unfold incomingHeaderMatcherInOrder incomingHeaderMatcher
  by_cases h1 : isPermanentHTTPHeader (textproto.CanonicalMIMEHeaderKey h) = true
  · simp only [SpecialCase.find_of_test order _ SpecialCase.permanent
      (hall _) (by simpa [SpecialCase.test] using h1), SpecialCase.result, h1, if_true]
  · by_cases h2 : isReserved (textproto.CanonicalMIMEHeaderKey h) = true
    · simp only [SpecialCase.find_of_test order _ SpecialCase.reserved
        (hall _) (by simpa [SpecialCase.test] using h2), SpecialCase.result, h1, h2, if_true,
        Bool.false_eq_true, if_false]
    · by_cases h3 : (textproto.CanonicalMIMEHeaderKey h == str "Content-Length") = true
      · simp only [SpecialCase.find_of_test order _ SpecialCase.contentLength
          (hall _) (by simpa [SpecialCase.test] using h3), SpecialCase.result, h1, h2, h3,
          if_true, Bool.false_eq_true, if_false]
      · have hnone : ∀ c : SpecialCase,
            c.test (textproto.CanonicalMIMEHeaderKey h) = false := by
          intro c
          cases c
          · simpa [SpecialCase.test] using h1
          · simpa [SpecialCase.test] using h2
          · simpa [SpecialCase.test] using h3
        simp only [SpecialCase.find_of_no_test order _ hnone, h1, h2, h3, Bool.false_eq_true,
          if_false]

/-- C16: no key meets more than one of the three special cases of
`incomingHeaderMatcher` (allowlist, reserved prefix, `Content-Length`), and the
function that tests them in any other order returns what
`incomingHeaderMatcher` returns, on every input. -/
theorem incomingHeaderMatcher_order_irrelevant (order : List SpecialCase)
    (hperm : order.Perm
      [SpecialCase.permanent, SpecialCase.reserved, SpecialCase.contentLength]) :
    (∀ k : GoString,
      (isPermanentHTTPHeader k && isReserved k) = false ∧
      (isPermanentHTTPHeader k && (k == str "Content-Length")) = false ∧
      (isReserved k && (k == str "Content-Length")) = false) ∧
    (∀ MetadataPrefix h : GoString,
      incomingHeaderMatcherInOrder order MetadataPrefix h
        = incomingHeaderMatcher MetadataPrefix h) := by
  constructor
  · intro k
    refine ⟨?_, ?_, ?_⟩
    · cases hp : isPermanentHTTPHeader k with
      | false => rfl
      | true =>
        cases hr : isReserved k with
        | false => rfl
        | true =>
          exact absurd (SpecialCase.test_unique k SpecialCase.permanent SpecialCase.reserved
            hp hr) (by decide)
    · cases hp : isPermanentHTTPHeader k with
      | false => rfl
      | true =>
        cases hr : k == str "Content-Length" with
        | false => rfl
        | true =>
          exact absurd (SpecialCase.test_unique k SpecialCase.permanent
            SpecialCase.contentLength hp hr) (by decide)
    · cases hp : isReserved k with
      | false => rfl
      | true =>
        cases hr : k == str "Content-Length" with
        | false => rfl
        | true =>
          exact absurd (SpecialCase.test_unique k SpecialCase.reserved
            SpecialCase.contentLength hp hr) (by decide)
  · have hall : ∀ c : SpecialCase, c ∈ order := by
      intro c
      rw [hperm.mem_iff]
      cases c <;> simp
    exact incomingHeaderMatcherInOrder_eq order hall

theorem incomingHeaderMatcher_order_irrelevant_witness :
    [SpecialCase.contentLength, SpecialCase.reserved, SpecialCase.permanent].Perm
      [SpecialCase.permanent, SpecialCase.reserved, SpecialCase.contentLength] ∧
    incomingHeaderMatcherInOrder
        [SpecialCase.contentLength, SpecialCase.reserved, SpecialCase.permanent]
        (str "grpcgateway-") (str "grpc-timeout")
      = incomingHeaderMatcher (str "grpcgateway-") (str "grpc-timeout") :=
  ⟨by decide,
    (incomingHeaderMatcher_order_irrelevant
      [SpecialCase.contentLength, SpecialCase.reserved, SpecialCase.permanent]
      (by decide)).2 (str "grpcgateway-") (str "grpc-timeout")⟩

/-- C17: `incomingHeaderMatcher` is not injective on canonical header names:
`Grpc-Timeout` and `X-Grpc-Timeout` are distinct, both in canonical form, and
both are mapped to `X-Grpc-Timeout` with `true`. -/
theorem incomingHeaderMatcher_collision (MetadataPrefix : GoString) :
    str "Grpc-Timeout" ≠ str "X-Grpc-Timeout" ∧
    textproto.CanonicalMIMEHeaderKey (str "Grpc-Timeout") = str "Grpc-Timeout" ∧
    textproto.CanonicalMIMEHeaderKey (str "X-Grpc-Timeout") = str "X-Grpc-Timeout" ∧
    incomingHeaderMatcher MetadataPrefix (str "Grpc-Timeout") = (str "X-Grpc-Timeout", true) ∧
    incomingHeaderMatcher MetadataPrefix (str "X-Grpc-Timeout")
      = (str "X-Grpc-Timeout", true) ∧
    ¬ Function.Injective (incomingHeaderMatcher MetadataPrefix) := by
  have c1 : textproto.CanonicalMIMEHeaderKey (str "Grpc-Timeout") = str "Grpc-Timeout" := by
    decide
  have c2 : textproto.CanonicalMIMEHeaderKey (str "X-Grpc-Timeout") = str "X-Grpc-Timeout" := by
    decide
  have p1 : isPermanentHTTPHeader (str "Grpc-Timeout") = false := by decide
  have p2 : isPermanentHTTPHeader (str "X-Grpc-Timeout") = false := by decide
  have r1 : isReserved (str "Grpc-Timeout") = true := by decide
  have r2 : isReserved (str "X-Grpc-Timeout") = false := by decide
  have l2 : (str "X-Grpc-Timeout" == str "Content-Length") = false := by decide
  have hx : str "X-" ++ str "Grpc-Timeout" = str "X-Grpc-Timeout" := by decide
  have hne : str "Grpc-Timeout" ≠ str "X-Grpc-Timeout" := by decide
  have e1 : incomingHeaderMatcher MetadataPrefix (str "Grpc-Timeout")
      = (str "X-Grpc-Timeout", true) := by
    simp only [incomingHeaderMatcher, c1, p1, r1, hx, Bool.false_eq_true, if_false, if_true]
  have e2 : incomingHeaderMatcher MetadataPrefix (str "X-Grpc-Timeout")
      = (str "X-Grpc-Timeout", true) := by
    simp only [incomingHeaderMatcher, c2, p2, r2, l2, Bool.false_eq_true, if_false]
  exact ⟨hne, c1, c2, e1, e2, fun hinj => hne (hinj (e1.trans e2.symm))⟩

/-! ## Path-prefix normalizer: idempotence -/

/-- A string that ends with the slash is returned as it is. -/
theorem sanitizeApiPrefix_of_getLast (pfx : GoString)
    (h : pfx.getLast? = some '/'.toNat) : sanitizeApiPrefix pfx = pfx := by
  have hd : pfx.drop (pfx.length - 1) = str "/" := (drop_last_eq_iff pfx _).2 h
  have hl : pfx.length ≠ 0 := by
    intro h0
    rw [List.length_eq_zero.1 h0] at h
    exact absurd h (by decide)
  unfold sanitizeApiPrefix
  rw [if_neg]
  simp [hl, hd]

/-- The result is the argument, or the argument followed by a slash. -/
theorem sanitizeApiPrefix_cases (pfx : GoString) :
    sanitizeApiPrefix pfx = pfx ∨ sanitizeApiPrefix pfx = pfx ++ str "/" := by
  unfold sanitizeApiPrefix
  split
  · exact Or.inr rfl
  · exact Or.inl rfl

/-- C18: `sanitizeApiPrefix` is idempotent and only appends: applying it twice
gives what applying it once gives, the argument is a prefix of the result, and
the result is at most one byte longer than the argument. -/
theorem sanitizeApiPrefix_idempotent (pfx : GoString) :
    sanitizeApiPrefix (sanitizeApiPrefix pfx) = sanitizeApiPrefix pfx ∧
    HasPrefix (sanitizeApiPrefix pfx) pfx = true ∧
    (sanitizeApiPrefix pfx).length ≤ pfx.length + 1 := by
  rcases sanitizeApiPrefix_cases pfx with h | h
  · rw [h, h]
    exact ⟨rfl, by simp [HasPrefix], Nat.le_succ _⟩
  · rw [h]
    refine ⟨sanitizeApiPrefix_of_getLast _ (List.getLast?_concat pfx), ?_, ?_⟩
    · simp [HasPrefix]
    · simp [str]

end Proxy
